import Mathlib

/-!
Verification of the relational storage layer of `ovm-graph-node` and of the
network-indexer entity converters.

The store's `Layout` (schema projection, write path, query planner) is not
part of the staged sources: only its integration tests
(`src/store/postgres/tests/relational.rs`) are.  The definitions below are
therefore modelled from the specification (`spec.md` §3-§4.6) and validated
against the concrete expectations the staged tests encode.  The converters
(`src/chain/ethereum/src/network_indexer/convert.rs`) are embedded from the
staged source directly.
-/

set_option maxHeartbeats 2000000
set_option maxRecDepth 4000

namespace RelStore

/-- Modelled from the spec: the `Value` tagged union of `graph::data::store`
(spec §3).  `BigDecimal` keeps the crate's signed-scale representation
`digits · 10^(-scale)`, scales may be negative.  Bytes are byte lists,
lists are homogeneous value lists.  Enum values travel as their string
form (spec §4.3 rule 6), so no separate tag is needed for the claims. -/
inductive Value where
  | null
  | bool (b : Bool)
  | int (i : Int)
  | bigDecimal (digits : Int) (scale : Int)
  | bigInt (i : Int)
  | string (s : String)
  | bytes (bs : List Nat)
  | list (vs : List Value)
deriving Repr

mutual

/-- Structural (representational) equality on values, used only to decide
propositional equality of the embedded type. -/
def sEq : Value → Value → Bool
  | .null, .null => true
  | .bool a, .bool b => a == b
  | .int a, .int b => a == b
  | .bigDecimal d1 s1, .bigDecimal d2 s2 => d1 == d2 && s1 == s2
  | .bigInt a, .bigInt b => a == b
  | .string a, .string b => a == b
  | .bytes a, .bytes b => a == b
  | .list xs, .list ys => sEqList xs ys
  | _, _ => false

/-- Pointwise `sEq` on value lists. -/
def sEqList : List Value → List Value → Bool
  | [], [] => true
  | x :: xs, y :: ys => sEq x y && sEqList xs ys
  | _, _ => false

end

mutual

theorem sEq_iff : (v w : Value) → (sEq v w = true ↔ v = w)
  | .null, w => by cases w <;> simp [sEq]
  | .bool a, w => by cases w <;> simp [sEq]
  | .int a, w => by cases w <;> simp [sEq]
  | .bigDecimal d1 s1, w => by cases w <;> simp [sEq]
  | .bigInt a, w => by cases w <;> simp [sEq]
  | .string a, w => by cases w <;> simp [sEq]
  | .bytes a, w => by cases w <;> simp [sEq]
  | .list xs, w => by
    cases w with
    | list ys => simpa [sEq] using sEqList_iff xs ys
    | _ => simp [sEq]

theorem sEqList_iff : (xs ys : List Value) → (sEqList xs ys = true ↔ xs = ys)
  | [], [] => by simp [sEqList]
  | [], _ :: _ => by simp [sEqList]
  | _ :: _, [] => by simp [sEqList]
  | x :: xs, y :: ys => by
    simp [sEqList, sEq_iff x y, sEqList_iff xs ys]

end

instance : DecidableEq Value := fun v w => decidable_of_iff _ (sEq_iff v w)

/-- The mathematical value `digits · 10^(-scale)` a `BigDecimal` denotes. -/
def decimalVal (digits scale : Int) : ℚ :=
  (digits : ℚ) * (10 : ℚ) ^ (-scale)

/-- Numeric equality of two signed-scale decimals, by cross-multiplying with
the power of ten that aligns the scales (spec §3: "BigDecimal equality is by
numeric value"). -/
def decimalEq (d1 s1 d2 s2 : Int) : Bool :=
  if s1 ≤ s2 then d1 * (10 : Int) ^ (s2 - s1).toNat == d2
  else d1 == d2 * (10 : Int) ^ (s1 - s2).toNat

/-- Strip factors of ten from `d` into the scale, with fuel. -/
def stripZerosAux : Nat → Int → Int → Int × Int
  | 0, d, s => (d, s)
  | n + 1, d, s =>
    if d % 10 == 0 && d != 0 then stripZerosAux n (d / 10) (s - 1) else (d, s)

/-- Modelled from the spec: the storage may normalize a decimal's scale as
long as numeric equality is preserved (spec §4.1); trailing zeros of the
unscaled digits move into the scale, as the numeric column does. -/
def decimalNorm (d s : Int) : Int × Int :=
  stripZerosAux d.natAbs d s

mutual

/-- Value equality as the store compares column values: structural on every
variant except `BigDecimal`, which compares by numeric value (spec §3). -/
def veq : Value → Value → Bool
  | .null, .null => true
  | .bool a, .bool b => a == b
  | .int a, .int b => a == b
  | .bigDecimal d1 s1, .bigDecimal d2 s2 => decimalEq d1 s1 d2 s2
  | .bigInt a, .bigInt b => a == b
  | .string a, .string b => a == b
  | .bytes a, .bytes b => a == b
  | .list xs, .list ys => veqList xs ys
  | _, _ => false

/-- Pointwise `veq` on value lists. -/
def veqList : List Value → List Value → Bool
  | [], [] => true
  | x :: xs, y :: ys => veq x y && veqList xs ys
  | _, _ => false

end

mutual

/-- Modelled from the spec: the storage representation of a value; only
decimals are rewritten, to a normalized scale of equal numeric value
(spec §4.1), recursively below lists. -/
def normVal : Value → Value
  | .bigDecimal d s => .bigDecimal (decimalNorm d s).1 (decimalNorm d s).2
  | .list vs => .list (normList vs)
  | v => v

/-- `normVal` mapped over a value list. -/
def normList : List Value → List Value
  | [] => []
  | v :: vs => normVal v :: normList vs

end

theorem decimalVal_shift (d s : Int) (k : Nat) :
    decimalVal (d * 10 ^ k) (s + (k : Int)) = decimalVal d s := by
  unfold decimalVal
  have h10 : (10 : ℚ) ≠ 0 := by norm_num
  have h1 : ((d * 10 ^ k : Int) : ℚ) = (d : ℚ) * (10 : ℚ) ^ (k : Int) := by
    push_cast
    rw [zpow_natCast]
  have h2 : (10 : ℚ) ^ (-(s + (k : Int))) = (10 : ℚ) ^ (-s) * ((10 : ℚ) ^ (k : Int))⁻¹ := by
    rw [neg_add, zpow_add₀ h10, zpow_neg (10 : ℚ) (k : Int)]
  rw [h1, h2]
  have h3 : (10 : ℚ) ^ (k : Int) ≠ 0 := zpow_ne_zero _ h10
  field_simp
  ring

theorem decimalVal_inj {a b s : Int} (h : decimalVal a s = decimalVal b s) :
    a = b := by
  unfold decimalVal at h
  have h10 : (10 : ℚ) ^ (-s) ≠ 0 := zpow_ne_zero _ (by norm_num)
  have := mul_right_cancel₀ h10 h
  exact_mod_cast this

theorem decimalEq_iff (d1 s1 d2 s2 : Int) :
    decimalEq d1 s1 d2 s2 = true ↔ decimalVal d1 s1 = decimalVal d2 s2 := by
  unfold decimalEq
  split
  case isTrue h =>
    rw [beq_iff_eq]
    obtain ⟨k, hk⟩ : ∃ k : Nat, s2 = s1 + (k : Int) := ⟨(s2 - s1).toNat, by omega⟩
    subst hk
    have hkk : (s1 + (k : Int) - s1).toNat = k := by omega
    rw [hkk]
    constructor
    · intro he
      rw [← he]
      exact (decimalVal_shift d1 s1 k).symm
    · intro he
      exact decimalVal_inj ((decimalVal_shift d1 s1 k).trans he)
  case isFalse h =>
    rw [beq_iff_eq]
    obtain ⟨k, hk⟩ : ∃ k : Nat, s1 = s2 + (k : Int) := ⟨(s1 - s2).toNat, by omega⟩
    subst hk
    have hkk : (s2 + (k : Int) - s2).toNat = k := by omega
    rw [hkk]
    constructor
    · intro he
      rw [he]
      exact decimalVal_shift d2 s2 k
    · intro he
      exact decimalVal_inj (he.trans (decimalVal_shift d2 s2 k).symm)

theorem stripZerosAux_val (n : Nat) (d s : Int) :
    decimalVal (stripZerosAux n d s).1 (stripZerosAux n d s).2 = decimalVal d s := by
  induction n generalizing d s with
  | zero => rfl
  | succ n ih =>
    unfold stripZerosAux
    split
    case isTrue h =>
      rw [ih]
      have hmod : d % 10 = 0 := by
        have := (Bool.and_eq_true _ _).mp h
        exact beq_iff_eq.mp this.1
      have hdvd : (10 : Int) ∣ d := Int.dvd_of_emod_eq_zero hmod
      obtain ⟨c, hc⟩ := hdvd
      have hdc : d / 10 = c := by rw [hc]; exact Int.mul_ediv_cancel_left c (by norm_num)
      rw [hdc, hc]
      have h1 := decimalVal_shift c (s - 1) 1
      have h2 : (s - 1) + ((1 : Nat) : Int) = s := by omega
      have h3 : c * 10 ^ (1 : Nat) = 10 * c := by ring
      rw [h2, h3] at h1
      exact h1.symm
    case isFalse h => rfl

theorem decimalNorm_val (d s : Int) :
    decimalVal (decimalNorm d s).1 (decimalNorm d s).2 = decimalVal d s :=
  stripZerosAux_val d.natAbs d s

mutual

theorem veq_normVal : (v : Value) → veq (normVal v) v = true
  | .null => rfl
  | .bool b => by simp [normVal, veq]
  | .int i => by simp [normVal, veq]
  | .bigDecimal d s => by
    show decimalEq (decimalNorm d s).1 (decimalNorm d s).2 d s = true
    exact (decimalEq_iff _ _ _ _).mpr (decimalNorm_val d s)
  | .bigInt i => by simp [normVal, veq]
  | .string s => by simp [normVal, veq]
  | .bytes bs => by simp [normVal, veq]
  | .list vs => by
    show veqList (normList vs) vs = true
    exact veqList_normList vs

theorem veqList_normList : (vs : List Value) → veqList (normList vs) vs = true
  | [] => rfl
  | v :: vs => by
    show (veq (normVal v) v && veqList (normList vs) vs) = true
    rw [veq_normVal v, veqList_normList vs]
    rfl

end

mutual

theorem veq_refl : (v : Value) → veq v v = true
  | .null => rfl
  | .bool b => by simp [veq]
  | .int i => by simp [veq]
  | .bigDecimal d s => by
    show decimalEq d s d s = true
    exact (decimalEq_iff _ _ _ _).mpr rfl
  | .bigInt i => by simp [veq]
  | .string s => by simp [veq]
  | .bytes bs => by simp [veq]
  | .list vs => by
    show veqList vs vs = true
    exact veqList_refl vs

theorem veqList_refl : (vs : List Value) → veqList vs vs = true
  | [] => rfl
  | v :: vs => by
    show (veq v v && veqList vs vs) = true
    rw [veq_refl v, veqList_refl vs]
    rfl

end

/-- An `Entity` is an ordered mapping from field name to `Value` (spec §3);
lookup takes the first binding of a name. -/
abbrev Entity := List (String × Value)

/-- The value bound to a field, when the entity carries the field. -/
def getVal (e : Entity) (f : String) : Option Value :=
  (e.find? (fun p => p.1 == f)).map (fun p => p.2)

/-- Spec §3: a field stored as Null and an absent field both read as Null. -/
def getOrNull (e : Entity) (f : String) : Value :=
  (getVal e f).getD .null

/-- `EntityKey` of `graph::prelude` (spec §3). -/
structure EntityKey where
  subgraph_id : String
  entity_type : String
  entity_id : String

/-- `EntityFilter` of `graph::prelude`: the predicate AST of spec §4.3. -/
inductive EntityFilter where
  | And (fs : List EntityFilter)
  | Or (fs : List EntityFilter)
  | Equal (attr : String) (v : Value)
  | Not (attr : String) (v : Value)
  | LessThan (attr : String) (v : Value)
  | LessOrEqual (attr : String) (v : Value)
  | GreaterThan (attr : String) (v : Value)
  | GreaterOrEqual (attr : String) (v : Value)
  | In (attr : String) (vs : List Value)
  | NotIn (attr : String) (vs : List Value)
  | Contains (attr : String) (v : Value)
  | NotContains (attr : String) (v : Value)
  | StartsWith (attr : String) (v : Value)
  | NotStartsWith (attr : String) (v : Value)
  | EndsWith (attr : String) (v : Value)
  | NotEndsWith (attr : String) (v : Value)

/-- Is the value the SQL NULL of its column? -/
def isNull : Value → Bool
  | .null => true
  | _ => false

/-- Lexicographic comparison of character lists (Unicode code points),
the SQL text collation the model uses (spec §4.1). -/
def cmpChars : List Char → List Char → Ordering
  | [], [] => .eq
  | [], _ :: _ => .lt
  | _ :: _, [] => .gt
  | a :: xs, b :: ys =>
    if a < b then .lt else if b < a then .gt else cmpChars xs ys

/-- Full-value string comparison: no prefix truncation (spec §4.6). -/
def strCompare (a b : String) : Ordering :=
  cmpChars a.toList b.toList

/-- Numeric comparison on integers. -/
def cmpInt (a b : Int) : Ordering :=
  if a < b then .lt else if b < a then .gt else .eq

/-- Bytewise lexicographic comparison of byte strings (spec §4.1). -/
def cmpBytes : List Nat → List Nat → Ordering
  | [], [] => .eq
  | [], _ :: _ => .lt
  | _ :: _, [] => .gt
  | a :: xs, b :: ys =>
    if a < b then .lt else if b < a then .gt else cmpBytes xs ys

/-- The total order of spec §4.1 where it is defined: String lexicographic,
Int/BigInt/BigDecimal numeric, Bytes bytewise, Bool with false < true;
`none` where the order is not defined (Null or mismatched kinds). -/
def valueCompare : Value → Value → Option Ordering
  | .string a, .string b => some (strCompare a b)
  | .int a, .int b => some (cmpInt a b)
  | .bigInt a, .bigInt b => some (cmpInt a b)
  | .bigDecimal d1 s1, .bigDecimal d2 s2 =>
    some (if s1 ≤ s2 then cmpInt (d1 * (10 : Int) ^ (s2 - s1).toNat) d2
          else cmpInt d1 (d2 * (10 : Int) ^ (s1 - s2).toNat))
  | .bool a, .bool b => some (if a == b then .eq else if b then .lt else .gt)
  | .bytes a, .bytes b => some (cmpBytes a b)
  | _, _ => none

/-- Is a character list a prefix of another? -/
def listPrefixOf : List Char → List Char → Bool
  | [], _ => true
  | _ :: _, [] => false
  | a :: xs, b :: ys => a == b && listPrefixOf xs ys

/-- Case-sensitive substring match over the full stored string (spec §4.3
rule 3). -/
def strContainsSub (s n : String) : Bool :=
  (List.range (s.toList.length + 1)).any (fun i => listPrefixOf n.toList (s.toList.drop i))

/-- A comparison leaf matches only rows whose stored value is non-null and
stands in the requested order to the needle (spec §4.1: any non-equality
comparison against Null does not match). -/
def cmpFilter (row : Entity) (a : String) (v : Value) (keep : Ordering → Bool) : Bool :=
  let sv := getOrNull row a
  if isNull sv then false
  else match valueCompare sv v with
    | some o => keep o
    | none => false

/-- `Contains` semantics: substring on String columns, all-members containment
on List columns, order-independent (spec §4.3 rule 3). -/
def containsMatch (sv v : Value) : Bool :=
  match sv, v with
  | .string s, .string n => strContainsSub s n
  | .list xs, .list ns => ns.all (fun n => xs.any (fun x => veq x n))
  | _, _ => false

/-- `StartsWith`/`EndsWith`: case-sensitive prefix/suffix on strings
(spec §4.3 rule 4). -/
def affixMatch (atEnd : Bool) (sv v : Value) : Bool :=
  match sv, v with
  | .string s, .string n =>
    if atEnd then listPrefixOf n.toList.reverse s.toList.reverse
    else listPrefixOf n.toList s.toList
  | _, _ => false

mutual

/-- Modelled from the spec: the filter semantics of §4.3, as the planner
lowers each leaf over the row's columns.  NULL semantics follow §4.3 rule 1,
empty combinators rule 2 (`And([])` ≡ true, `Or([])` ≡ false), `In`/`NotIn`
rule 5 with `NotIn` also excluding stored NULLs when any value is listed. -/
def matchesF : EntityFilter → Entity → Bool
  | .And fs, row => matchesAll fs row
  | .Or fs, row => matchesAny fs row
  | .Equal a v, row => veq (getOrNull row a) v
  | .Not a v, row =>
    let sv := getOrNull row a
    if isNull v then !(isNull sv)
    else !(isNull sv) && !(veq sv v)
  | .LessThan a v, row => cmpFilter row a v (fun o => o == .lt)
  | .LessOrEqual a v, row => cmpFilter row a v (fun o => o != .gt)
  | .GreaterThan a v, row => cmpFilter row a v (fun o => o == .gt)
  | .GreaterOrEqual a v, row => cmpFilter row a v (fun o => o != .lt)
  | .In a vs, row =>
    let sv := getOrNull row a
    !(isNull sv) && vs.any (fun w => veq sv w)
  | .NotIn a vs, row =>
    if vs.isEmpty then true
    else
      let sv := getOrNull row a
      !(isNull sv) && vs.all (fun w => !(veq sv w))
  | .Contains a v, row => containsMatch (getOrNull row a) v
  | .NotContains a v, row =>
    let sv := getOrNull row a
    !(isNull sv) && !(containsMatch sv v)
  | .StartsWith a v, row => affixMatch false (getOrNull row a) v
  | .NotStartsWith a v, row =>
    let sv := getOrNull row a
    !(isNull sv) && !(affixMatch false sv v)
  | .EndsWith a v, row => affixMatch true (getOrNull row a) v
  | .NotEndsWith a v, row =>
    let sv := getOrNull row a
    !(isNull sv) && !(affixMatch true sv v)

/-- Conjunction of a filter list (`And`); empty means true. -/
def matchesAll : List EntityFilter → Entity → Bool
  | [], _ => true
  | f :: fs, row => matchesF f row && matchesAll fs row

/-- Disjunction of a filter list (`Or`); empty means false. -/
def matchesAny : List EntityFilter → Entity → Bool
  | [], _ => false
  | f :: fs, row => matchesF f row || matchesAny fs row

end

/-- `STRING_PREFIX_SIZE` of `graph_store_postgres::layout_for_tests`: the
layout-wide prefix-index size P (spec §4.6). -/
def STRING_PREFIX_SIZE : Nat := 256

/-- `BLOCK_NUMBER_MAX` of `graph::prelude`. -/
def BLOCK_NUMBER_MAX : Nat := 2147483647

/-- Modelled from the spec: the compiled `Layout` (spec §3), reduced to what
the claims consume: the table per entity type with its column names.  Every
table implicitly carries `id` and the `block_range` annotation, modelled on
the rows themselves. -/
structure Layout where
  tables : List (String × List String)

/-- Does the layout hold a table for the entity type? -/
def hasTable (l : Layout) (t : String) : Bool :=
  (l.tables.find? (fun p => p.1 == t)).isSome

/-- The column names of an entity type's table. -/
def tableFields (l : Layout) (t : String) : List String :=
  ((l.tables.find? (fun p => p.1 == t)).map (fun p => p.2)).getD []

/-- Modelled from the spec: one stored row version.  `fromBlock`/`toBlock`
are the row's `block_range`: written at `fromBlock`, superseded at `toBlock`
(open-ended when `none`), spec §3. -/
structure Row where
  entityType : String
  entityId : String
  data : Entity
  fromBlock : Nat
  toBlock : Option Nat

abbrev Store := List Row

/-- Does the row's `block_range` cover block `b` (spec §3: the observable
state at block B is the union of rows whose range covers B)? -/
def visibleAt (b : Nat) (r : Row) : Bool :=
  r.fromBlock ≤ b && (match r.toBlock with | none => true | some t => b < t)

/-- Modelled from the spec: the column values written for an entity: one
column per schema field; fields absent from the entity are stored as NULL
(spec §4.5), and values take their normalized storage representation. -/
def encodeRow (fields : List String) (e : Entity) : Entity :=
  fields.map (fun f => (f, normVal (getOrNull e f)))

/-- The message of the `UnknownTable` error (spec §7). -/
def unknownTable (t : String) : String :=
  "unknown table '" ++ t ++ "'"

/-- Modelled from the spec: `Layout::insert` (spec §4.5): validates the key's
table and `entity.id == key.entity_id`, then writes a row whose `block_range`
begins at `block` and is open-ended. -/
def Layout.insert (l : Layout) (s : Store) (k : EntityKey) (e : Entity) (block : Nat) :
    Except String Store :=
  if !(hasTable l k.entity_type) then .error (unknownTable k.entity_type)
  else if getVal e "id" = some (.string k.entity_id) then
    .ok (s ++ [⟨k.entity_type, k.entity_id, encodeRow (tableFields l k.entity_type) e, block, none⟩])
  else .error "entity id does not match key"

/-- Close the open `block_range` of the key's current row at `b`. -/
def clampRow (t id : String) (b : Nat) (r : Row) : Row :=
  if r.entityType == t && r.entityId == id && r.toBlock == none then
    { r with toBlock := some b }
  else r

/-- Modelled from the spec: `Layout::update` (spec §4.5): a wholesale
replace — the current row's `block_range` is closed at `block` and a fresh
open-ended row holding exactly the incoming entity's columns is written
(fields not present are stored as NULL, no partial merge). -/
def Layout.update (l : Layout) (s : Store) (k : EntityKey) (e : Entity) (block : Nat) :
    Except String Store :=
  if !(hasTable l k.entity_type) then .error (unknownTable k.entity_type)
  else if getVal e "id" = some (.string k.entity_id) then
    .ok ((s.map (clampRow k.entity_type k.entity_id block)) ++
      [⟨k.entity_type, k.entity_id, encodeRow (tableFields l k.entity_type) e, block, none⟩])
  else .error "entity id does not match key"

/-- Modelled from the spec: `Layout::find` (spec §6): the entity of the
given type and id visible at `block`, `none` when there is none, and the
`unknown table '<T>'` error for a type not in the layout (spec §4.4). -/
def Layout.find (l : Layout) (s : Store) (t id : String) (block : Nat) :
    Except String (Option Entity) :=
  if !(hasTable l t) then .error (unknownTable t)
  else .ok (((s.filter (fun r =>
    r.entityType == t && r.entityId == id && visibleAt block r)).head?).map (fun r => r.data))

/-- Is an entity of type `t` with the given id present (at the head block)? -/
def entityExists (s : Store) (t id : String) : Bool :=
  s.any (fun r => r.entityType == t && r.entityId == id && visibleAt BLOCK_NUMBER_MAX r)

/-- Modelled from the spec: `Layout::conflicting_entity` (spec §4.5): the
first type, in input order, holding an entity with the id; `none` when no
listed type does; fails with `unknown table '<T>'` when a listed type is not
in the layout. -/
def Layout.conflicting_entity (l : Layout) (s : Store) (id : String) (types : List String) :
    Except String (Option String) :=
  match types.find? (fun t => !(hasTable l t)) with
  | some t => .error (unknownTable t)
  | none => .ok (types.find? (fun t => entityExists s t id))

/-- Sort direction of an `order_by`. -/
inductive Direction where
  | asc
  | desc

/-- Apply the direction to a comparison outcome. -/
def applyDir : Direction → Ordering → Ordering
  | .asc, o => o
  | .desc, o => o.swap

/-- `lt` or `eq`. -/
def ordLE : Ordering → Bool
  | .gt => false
  | _ => true

/-- Modelled from the spec: the ordering key of §4.4: `ORDER BY attr
direction, id ASC` — the requested attribute first, `id` ascending as the
tiebreaker; ordering by `id` itself omits the tiebreaker. -/
def rowLe (attr : String) (dir : Direction) (r1 r2 : Row) : Bool :=
  if attr == "id" then ordLE (applyDir dir (strCompare r1.entityId r2.entityId))
  else
    match applyDir dir ((valueCompare (getOrNull r1.data attr) (getOrNull r2.data attr)).getD .eq) with
    | .lt => true
    | .gt => false
    | .eq => ordLE (strCompare r1.entityId r2.entityId)

/-- Insert into a sorted list, keeping earlier elements first among equals. -/
def insSorted {α : Type} (le : α → α → Bool) (x : α) : List α → List α
  | [] => [x]
  | y :: ys => if le x y then x :: y :: ys else y :: insSorted le x ys

/-- Stable insertion sort. -/
def sortBy {α : Type} (le : α → α → Bool) : List α → List α
  | [] => []
  | x :: xs => insSorted le x (sortBy le xs)

/-- Modelled from the spec: `Layout::query` (spec §4.4): restrict the store
to the collection's types and the rows visible at `block`, apply the filter,
order by the requested `(attr, direction)` with the id tiebreaker, apply
`skip`/`first`, and lift the surviving rows back to entities. -/
def Layout.query (l : Layout) (s : Store) (types : List String)
    (filter : Option EntityFilter) (order : Option (String × Direction))
    (skip : Nat) (first : Option Nat) (block : Nat) : Except String (List Entity) :=
  match types.find? (fun t => !(hasTable l t)) with
  | some t => .error (unknownTable t)
  | none =>
    let rows := s.filter (fun r => types.contains r.entityType && visibleAt block r)
    let rows := match filter with
      | some f => rows.filter (fun r => matchesF f r.data)
      | none => rows
    let rows := match order with
      | some (attr, dir) => sortBy (rowLe attr dir) rows
      | none => rows
    let rows := rows.drop skip
    let rows := match first with
      | some n => rows.take n
      | none => rows
    .ok (rows.map (fun r => r.data))

/-- The ids of a query's result entities, in result order (what the staged
tests extract from `layout.query`). -/
def queryIds (l : Layout) (s : Store) (types : List String)
    (filter : Option EntityFilter) (order : Option (String × Direction))
    (skip : Nat) (first : Option Nat) (block : Nat) : List String :=
  match Layout.query l s types filter order skip first block with
  | .ok es => es.map (fun e =>
      match getVal e "id" with
      | some (.string id) => id
      | _ => "")
  | .error _ => ["<query error>"]

/-- The UTF-8/ASCII bytes of a name, as `hex::encode` feeds `Bytes::from_str`
in the tests' `bin_name` column. -/
def strBytes (s : String) : List Nat :=
  s.toList.map Char.toNat

/-- The test schema's layout (`THINGS_GQL` of the staged tests): one table
per entity type with its columns. -/
def thingsLayout : Layout := ⟨[
  ("Thing", ["id", "bigThing"]),
  ("Scalar", ["id", "bool", "int", "bigDecimal", "string", "strings", "bytes", "byteArray", "bigInt", "color"]),
  ("Cat", ["id", "name"]),
  ("Dog", ["id", "name"]),
  ("Ferret", ["id", "name"]),
  ("User", ["id", "name", "bin_name", "email", "age", "seconds_age", "weight", "coffee", "favorite_color", "drinks"])]⟩

/-- The key of an entity of the `things` subgraph. -/
def mkKey (t id : String) : EntityKey :=
  ⟨"things", t, id⟩

/-- Unwrap a write that is expected to succeed (the tests' `expect`). -/
def expectStore : Except String Store → Store
  | .ok s => s
  | .error _ => []

/-- A `User` entity as `insert_user_entity` builds it: weight is the decimal
`weightDigits / 10`, `seconds_age = age * 31557600`, `favorite_color` is
stored as Null when absent, `drinks` is omitted when absent. -/
def userEntity (id name email : String) (age : Int) (weightDigits : Int)
    (coffee : Bool) (favoriteColor : Option String) (drinks : Option (List String)) : Entity :=
  [("id", .string id),
   ("name", .string name),
   ("bin_name", .bytes (strBytes name)),
   ("email", .string email),
   ("age", .int age),
   ("seconds_age", .bigInt (age * 31557600)),
   ("weight", .bigDecimal weightDigits 1),
   ("coffee", .bool coffee),
   ("favorite_color", match favoriteColor with
     | some c => .string c
     | none => .null)] ++
  (match drinks with
   | some ds => [("drinks", .list (ds.map Value.string))]
   | none => [])

/-- A pet entity (`insert_pet`). -/
def petEntity (id name : String) : Entity :=
  [("id", .string id), ("name", .string name)]

/-- The store the query tests run against (`test_find`): the three users of
`insert_users`, user 1 then updated to Jono at block 1, and the two pets. -/
def usersStoreE : Except String Store :=
  Layout.insert thingsLayout [] (mkKey "User" "1")
    (userEntity "1" "Johnton" "tonofjohn@email.com" 67 1844 false (some "yellow") none) 0 >>= fun s =>
  Layout.insert thingsLayout s (mkKey "User" "2")
    (userEntity "2" "Cindini" "dinici@email.com" 43 1591 true (some "red") (some ["beer", "wine"])) 0 >>= fun s =>
  Layout.insert thingsLayout s (mkKey "User" "3")
    (userEntity "3" "Shaqueeena" "teeko@email.com" 28 1117 false none (some ["coffee", "tea"])) 0 >>= fun s =>
  Layout.update thingsLayout s (mkKey "User" "1")
    (userEntity "1" "Jono" "achangedemail@email.com" 67 1844 false (some "yellow") none) 1 >>= fun s =>
  Layout.insert thingsLayout s (mkKey "Dog" "pluto") (petEntity "pluto" "Pluto") 0 >>= fun s =>
  Layout.insert thingsLayout s (mkKey "Cat" "garfield") (petEntity "garfield" "Garfield") 0

def usersStore : Store := expectStore usersStoreE

/-- A `User` query ordered by name descending, as the null/enum tests run. -/
def userQueryIds (f : EntityFilter) : List String :=
  queryIds thingsLayout usersStore ["User"] (some f) (some ("name", .desc)) 0 none BLOCK_NUMBER_MAX

/-- A `User` query with no explicit order (`user_query().filter(..)`). -/
def userQueryIdsPlain (f : EntityFilter) : List String :=
  queryIds thingsLayout usersStore ["User"] (some f) none 0 none BLOCK_NUMBER_MAX

/-- The four ferret names straddling P (`ferrets()` of the staged tests):
`a1 = 'a'×(P−1)`, `a2 = 'a'×P`, `a2b = 'a'×P · 'b'`, `a3 = 'a'×(P+1)`. -/
def aChars (n : Nat) : List Char :=
  List.replicate n 'a'

def ferretA1 : String := String.mk (aChars (STRING_PREFIX_SIZE - 1))

def ferretA2 : String := String.mk (aChars STRING_PREFIX_SIZE)

def ferretA2b : String := String.mk (aChars STRING_PREFIX_SIZE ++ ['b'])

def ferretA3 : String := String.mk (aChars (STRING_PREFIX_SIZE + 1))

/-- The store of the text-comparison tests (`text_find`). -/
def ferretStoreE : Except String Store :=
  Layout.insert thingsLayout [] (mkKey "Ferret" "a1") (petEntity "a1" ferretA1) 0 >>= fun s =>
  Layout.insert thingsLayout s (mkKey "Ferret" "a2") (petEntity "a2" ferretA2) 0 >>= fun s =>
  Layout.insert thingsLayout s (mkKey "Ferret" "a2b") (petEntity "a2b" ferretA2b) 0 >>= fun s =>
  Layout.insert thingsLayout s (mkKey "Ferret" "a3") (petEntity "a3" ferretA3) 0

def ferretStore : Store := expectStore ferretStoreE

/-- A `Ferret` query ordered by id ascending (`text_find`). -/
def ferretQueryIds (f : EntityFilter) : List String :=
  queryIds thingsLayout ferretStore ["Ferret"] (some f) (some ("id", .asc)) 0 none BLOCK_NUMBER_MAX

/-- The store of the conflict test: Fred the cat (`conflicting_entity`). -/
def catStore : Store :=
  expectStore (Layout.insert thingsLayout [] (mkKey "Cat" "fred")
    [("id", .string "fred"), ("name", .string "fred")] 0)

/-- Does every binding of the entity name a schema column (spec §3: no
entity is written whose fields violate the schema)? -/
def conformsTo (fields : List String) (e : Entity) : Bool :=
  e.all (fun p => fields.contains p.1)

end RelStore

namespace Convert

open RelStore

/-- A lowercase hex digit. -/
def hexDigit (n : Nat) : Char :=
  if n < 10 then Char.ofNat (48 + n) else Char.ofNat (87 + n)

/-- The `format!("{:x}", hash)` rendering of an `H256`: 64 lowercase hex
digits, leading zeros kept.  Hashes are embedded as their numeric value. -/
def h256Hex (v : Nat) : String :=
  String.mk ((List.range 64).map (fun i => hexDigit (v / 16 ^ (63 - i) % 16)))

/-- Modelled from the spec: the `ToEntityId` impl for `H256` is outside the
staged sources; the converters rely on it rendering the hash as the same
`{:x}` lowercase hex string `to_entity_key` builds with `format!`. -/
def H256.toEntityId (h : Nat) : String :=
  h256Hex h

/-- Big-endian byte rendering of a `w`-byte word, as word types convert into
`Value::Bytes`. -/
def natBytes (w v : Nat) : List Nat :=
  (List.range w).map (fun i => v / 256 ^ (w - 1 - i) % 256)

/-- `web3::types::Transaction`, reduced to the fields `convert.rs` reads;
optional fields the source `unwrap`s stay `Option`. -/
structure Transaction where
  hash : Nat
  nonce : Nat
  transaction_index : Option Nat
  from_addr : Nat
  to_addr : Option Nat
  value : Nat
  gas_price : Nat
  gas : Nat
  input : List Nat
  block_hash : Option Nat

/-- `impl ToEntityId for Transaction`: `format!("{:x}", self.0.hash)`. -/
def Transaction.to_entity_id (t : Transaction) : String :=
  h256Hex t.hash

/-- `impl ToEntityKey for &Transaction`. -/
def Transaction.to_entity_key (t : Transaction) (subgraph_id : String) : EntityKey :=
  ⟨subgraph_id, "Transaction", h256Hex t.hash⟩

/-- `impl TryIntoEntity for &Transaction`; the source `unwrap`s
`transaction_index` and `block_hash`, modelled as `none` (a panic) when
either is absent. -/
def Transaction.try_into_entity (t : Transaction) : Option Entity :=
  match t.transaction_index, t.block_hash with
  | some idx, some bh => some
    [("id", .string (H256.toEntityId t.hash)),
     ("hash", .bytes (natBytes 32 t.hash)),
     ("nonce", .bigInt t.nonce),
     ("index", .bigInt idx),
     ("from", .bytes (natBytes 20 t.from_addr)),
     ("to", match t.to_addr with
       | some a => .bytes (natBytes 20 a)
       | none => .null),
     ("value", .bigInt t.value),
     ("gasPrice", .bigInt t.gas_price),
     ("gas", .bigInt t.gas),
     ("inputData", .bytes t.input),
     ("block", .string (h256Hex bh))]
  | _, _ => none

/-- `web3::types::Block`, reduced to the fields `convert.rs` reads. -/
structure RawBlock where
  hash : Option Nat
  number : Option Nat
  parent_hash : Nat
  nonce : Option Nat
  transactions_root : Nat
  state_root : Nat
  receipts_root : Nat
  extra_data : List Nat
  gas_limit : Nat
  gas_used : Nat
  timestamp : Nat
  logs_bloom : Nat
  mix_hash : Nat
  difficulty : Nat
  total_difficulty : Nat
  uncles_hash : Nat
  uncles : List Nat
  transactions : List Transaction
  size : Option Nat
  seal_fields : List (List Nat)

/-- `EthereumBlock`: the network indexer's block wrapper. -/
structure EthereumBlock where
  block : RawBlock

/-- `BlockWithOmmers`: a block together with its resolved ommers. -/
structure BlockWithOmmers where
  block : EthereumBlock
  ommers : List RawBlock

/-- `BlockWithOmmers::inner()`. -/
def BlockWithOmmers.inner (b : BlockWithOmmers) : RawBlock :=
  b.block.block

/-- `impl ToEntityId for BlockWithOmmers`:
`(*self).block.block.hash.unwrap().to_entity_id()`; the `unwrap` of an
absent hash is modelled as `none`. -/
def BlockWithOmmers.to_entity_id (b : BlockWithOmmers) : Option String :=
  b.block.block.hash.map (fun h => H256.toEntityId h)

/-- `impl ToEntityKey for &BlockWithOmmers`:
`format!("{:x}", (*self).block.block.hash.unwrap())` under type `Block`. -/
def BlockWithOmmers.to_entity_key (b : BlockWithOmmers) (subgraph_id : String) :
    Option EntityKey :=
  b.block.block.hash.map (fun h => ⟨subgraph_id, "Block", h256Hex h⟩)

/-- `impl TryIntoEntity for &BlockWithOmmers`, field for field (including the
repeated `transactions` binding of the source); the `unwrap`s of `hash` and
`number` are modelled as `none` when absent. -/
def BlockWithOmmers.try_into_entity (b : BlockWithOmmers) : Option Entity :=
  match b.inner.hash, b.inner.number with
  | some h, some n => some
    [("id", .string (h256Hex h)),
     ("number", .bigInt n),
     ("hash", .bytes (natBytes 32 h)),
     ("parent", .string (H256.toEntityId b.inner.parent_hash)),
     ("nonce", match b.inner.nonce with
       | some nonce => .bytes (natBytes 8 nonce)
       | none => .null),
     ("transactionsRoot", .bytes (natBytes 32 b.inner.transactions_root)),
     ("transactionCount", .int b.inner.transactions.length),
     ("transactions", .list (b.inner.transactions.map
       (fun tx => .string (H256.toEntityId tx.hash)))),
     ("stateRoot", .bytes (natBytes 32 b.inner.state_root)),
     ("receiptsRoot", .bytes (natBytes 32 b.inner.receipts_root)),
     ("extraData", .bytes b.inner.extra_data),
     ("gasLimit", .bigInt b.inner.gas_limit),
     ("gasUsed", .bigInt b.inner.gas_used),
     ("timestamp", .bigInt b.inner.timestamp),
     ("logsBloom", .bytes (natBytes 256 b.inner.logs_bloom)),
     ("mixHash", .bytes (natBytes 32 b.inner.mix_hash)),
     ("difficulty", .bigInt b.inner.difficulty),
     ("totalDifficulty", .bigInt b.inner.total_difficulty),
     ("isOmmer", .bool false),
     ("ommerCount", .int b.ommers.length),
     ("ommers", .list (b.inner.uncles.map (fun u => .string (H256.toEntityId u)))),
     ("ommerHash", .bytes (natBytes 32 b.inner.uncles_hash)),
     ("transactions", .list (b.inner.transactions.map
       (fun tx => .string (H256.toEntityId tx.hash)))),
     ("size", match b.inner.size with
       | some sz => .bigInt sz
       | none => .null),
     ("sealFields", .list (b.inner.seal_fields.map (fun f => .bytes f)))]
  | _, _ => none

end Convert

namespace RelStore

theorem veq_null_right : (v : Value) → veq v .null = isNull v
  | .null => rfl
  | .bool _ => rfl
  | .int _ => rfl
  | .bigDecimal _ _ => rfl
  | .bigInt _ => rfl
  | .string _ => rfl
  | .bytes _ => rfl
  | .list _ => rfl

theorem all_perm {α : Type} {p : α → Bool} {l1 l2 : List α} (h : l1.Perm l2) :
    l1.all p = l2.all p := by
  induction h with
  | nil => rfl
  | cons x _ ih => simp [List.all_cons, ih]
  | swap x y l => simp [List.all_cons, Bool.and_left_comm]
  | trans _ _ ih1 ih2 => exact ih1.trans ih2

theorem find?_split {α : Type} {p : α → Bool} :
    ∀ {l : List α} {a : α}, l.find? p = some a →
      ∃ l1 l2, l = l1 ++ a :: l2 ∧ (∀ x ∈ l1, p x = false) ∧ p a = true := by
  intro l
  induction l with
  | nil => intro a h; cases h
  | cons x xs ih =>
    intro a h
    by_cases hp : p x = true
    · rw [List.find?_cons_of_pos xs hp] at h
      cases h
      refine ⟨[], xs, rfl, ?_, hp⟩
      intro y hy
      cases hy
    · rw [List.find?_cons_of_neg xs hp] at h
      obtain ⟨l1, l2, hsplit, hpre, hpa⟩ := ih h
      refine ⟨x :: l1, l2, by rw [hsplit]; rfl, ?_, hpa⟩
      intro y hy
      rcases List.mem_cons.mp hy with hyx | hyl
      · subst hyx
        exact Bool.eq_false_iff.mpr hp
      · exact hpre y hyl

theorem getVal_encodeRow (fields : List String) (e : Entity) (f : String) :
    getVal (encodeRow fields e) f =
      if fields.contains f then some (normVal (getOrNull e f)) else none := by
  induction fields with
  | nil => rfl
  | cons g gs ih =>
    by_cases hg : g = f
    · subst hg
      simp [encodeRow, getVal, List.find?_cons_of_pos]
    · have hne : (g == f) = false := by simp [hg]
      simp only [encodeRow, List.map_cons, getVal, List.contains_cons]
      rw [List.find?_cons_of_neg]
      · have := ih
        simp only [getVal, encodeRow] at this
        rw [this]
        have hfg : (f == g) = false := by simp [Ne.symm hg]
        simp [hfg]
      · simp [hne]

theorem getVal_eq_none_of_conforms {fields : List String} {e : Entity} {f : String}
    (hc : conformsTo fields e = true) (hf : fields.contains f = false) :
    getVal e f = none := by
  induction e with
  | nil => rfl
  | cons p ps ih =>
    rw [conformsTo, List.all_cons, Bool.and_eq_true] at hc
    have hne : (p.1 == f) = false := by
      by_cases hpf : p.1 = f
      · rw [hpf] at hc; rw [hc.1] at hf; cases hf
      · simp [hpf]
    simp only [getVal]
    rw [List.find?_cons_of_neg]
    · exact ih hc.2
    · simp [hne]

theorem normVal_null : normVal .null = .null := rfl

theorem clampRow_entityType (t id : String) (b : Nat) (r : Row) :
    (clampRow t id b r).entityType = r.entityType := by
  unfold clampRow
  split <;> rfl

theorem clampRow_entityId (t id : String) (b : Nat) (r : Row) :
    (clampRow t id b r).entityId = r.entityId := by
  unfold clampRow
  split <;> rfl

theorem pred_false_of_fresh {t id : String} {b : Nat} {r : Row}
    (h : ¬(r.entityType = t ∧ r.entityId = id)) :
    (r.entityType == t && r.entityId == id && visibleAt b r) = false := by
  by_cases h1 : r.entityType = t
  · by_cases h2 : r.entityId = id
    · exact absurd ⟨h1, h2⟩ h
    · simp [h2]
  · simp [h1]

/-- C5: the empty filter combinators obey the fixed conventions: for every
row, `And([])` matches everything, `Or([])` matches nothing, `In(a, [])`
matches nothing, `NotIn(a, [])` matches everything, and nested
`And([Or([])])` matches nothing while `Or([And([])])` matches everything. -/
theorem empty_combinator_semantics (row : Entity) (a : String) :
    matchesF (.And []) row = true ∧
    matchesF (.Or []) row = false ∧
    matchesF (.In a []) row = false ∧
    matchesF (.NotIn a []) row = true ∧
    matchesF (.And [.Or []]) row = false ∧
    matchesF (.Or [.And []]) row = true := by
  refine ⟨?_, ?_, ?_, ?_, ?_, ?_⟩ <;>
    simp [matchesF, matchesAll, matchesAny]

/-- C2: `Equal(a, Null)` matches exactly the rows whose `a` is stored NULL,
`Not(a, Null)` exactly the rows whose `a` is not NULL, and `NotIn(a, vs)`
with `Null ∈ vs` matches exactly the rows that are non-null and differ from
every listed value (so NULL rows are excluded along with the listed
non-null values); on the users fixture `Equal(favorite_color, Null)`
returns `[3]`, `Not(favorite_color, Null)` returns `[1,2]` and
`NotIn(favorite_color, [red, Null])` returns `[1]`. -/
theorem null_filter_semantics (a : String) (row : Entity) (vs : List Value)
    (hvs : Value.null ∈ vs) :
    matchesF (.Equal a .null) row = isNull (getOrNull row a) ∧
    matchesF (.Not a .null) row = !(isNull (getOrNull row a)) ∧
    matchesF (.NotIn a vs) row =
      (!(isNull (getOrNull row a)) && vs.all (fun w => !(veq (getOrNull row a) w))) ∧
    userQueryIds (.Equal "favorite_color" .null) = ["3"] ∧
    userQueryIds (.Not "favorite_color" .null) = ["1", "2"] ∧
    userQueryIds (.NotIn "favorite_color" [.string "red", .null]) = ["1"] := by
  refine ⟨?_, ?_, ?_, rfl, rfl, rfl⟩
  · rw [show matchesF (.Equal a .null) row = veq (getOrNull row a) .null from by
      simp [matchesF]]
    exact veq_null_right _
  · simp [matchesF, isNull]
  · cases vs with
    | nil => cases hvs
    | cons v vs => simp [matchesF]

theorem null_filter_semantics_witness :
    matchesF (.NotIn "favorite_color" [Value.null]) [("favorite_color", Value.null)] =
      (!(isNull (getOrNull [("favorite_color", Value.null)] "favorite_color")) &&
        [Value.null].all (fun w =>
          !(veq (getOrNull [("favorite_color", Value.null)] "favorite_color") w))) :=
  (null_filter_semantics "favorite_color" [("favorite_color", Value.null)] [Value.null]
    (by simp)).2.2.1

/-- C3: string comparison filters compare full string values, not the first
`STRING_PREFIX_SIZE` characters: over the four ferret names straddling P the
string order is `a1 < a2 < a3 < a2b`, `LessThan(name, a2b)` ordered by id
ascending returns exactly `[a1, a2, a3]`, `GreaterThan(name, a2)` returns
exactly `[a2b, a3]`, and `Equal(name, a2)` returns exactly `[a2]` — never
`a2b` despite the shared P-character prefix. -/
theorem text_comparison_full_value :
    valueCompare (.string ferretA1) (.string ferretA2) = some .lt ∧
    valueCompare (.string ferretA2) (.string ferretA3) = some .lt ∧
    valueCompare (.string ferretA3) (.string ferretA2b) = some .lt ∧
    ferretQueryIds (.LessThan "name" (.string ferretA2b)) = ["a1", "a2", "a3"] ∧
    ferretQueryIds (.GreaterThan "name" (.string ferretA2)) = ["a2b", "a3"] ∧
    ferretQueryIds (.Equal "name" (.string ferretA2)) = ["a2"] :=
  ⟨rfl, rfl, rfl, rfl, rfl, rfl⟩

/-- C7: a query over the multi-type collection `All([Cat, Dog])` returns the
union of the per-type results in the requested order — with garfield the Cat
and pluto the Dog stored, ordering by id ascending gives
`[garfield, pluto]`, by id descending `[pluto, garfield]`, and by name
descending `[pluto, garfield]`; the name-ordered result is a permutation of
the concatenated per-type results. -/
theorem interface_query_union_order :
    queryIds thingsLayout usersStore ["Cat", "Dog"] none (some ("id", .asc)) 0 none
      BLOCK_NUMBER_MAX = ["garfield", "pluto"] ∧
    queryIds thingsLayout usersStore ["Cat", "Dog"] none (some ("id", .desc)) 0 none
      BLOCK_NUMBER_MAX = ["pluto", "garfield"] ∧
    queryIds thingsLayout usersStore ["Cat", "Dog"] none (some ("name", .desc)) 0 none
      BLOCK_NUMBER_MAX = ["pluto", "garfield"] ∧
    (queryIds thingsLayout usersStore ["Cat", "Dog"] none (some ("name", .desc)) 0 none
      BLOCK_NUMBER_MAX).Perm
      (queryIds thingsLayout usersStore ["Cat"] none (some ("name", .desc)) 0 none
        BLOCK_NUMBER_MAX ++
       queryIds thingsLayout usersStore ["Dog"] none (some ("name", .desc)) 0 none
        BLOCK_NUMBER_MAX) := by
  refine ⟨rfl, rfl, rfl, ?_⟩
  show List.Perm ["pluto", "garfield"] (["garfield"] ++ ["pluto"])
  exact List.Perm.swap "garfield" "pluto" []

/-- C8: `Contains` on a String attribute is a case-sensitive substring
match; on a List attribute it requires every provided element to be present
in the stored list, independently of the order of the provided list, and a
single-element list is exactly list membership.  On the users fixture
`Contains(name, "ind")` returns `[2]`, `Contains(drinks, [beer])` returns
`[2]`, `Contains(drinks, [tea, coffee])` returns `[3]` (the reverse of the
stored order), and every query listing a drink missing from the stored list
returns `[]`. -/
theorem contains_semantics (ns ms : List Value) (hperm : ns.Perm ms) :
    (∀ (row : Entity) (a : String),
      matchesF (.Contains a (.list ns)) row = matchesF (.Contains a (.list ms)) row) ∧
    (∀ (row : Entity) (a : String) (v : Value),
      matchesF (.Contains a (.list [v])) row =
        (match getOrNull row a with
         | .list xs => xs.any (fun x => veq x v)
         | _ => false)) ∧
    userQueryIds (.Contains "name" (.string "ind")) = ["2"] ∧
    userQueryIdsPlain (.Contains "drinks" (.list [.string "beer"])) = ["2"] ∧
    userQueryIdsPlain (.Contains "drinks" (.list [.string "tea", .string "coffee"])) = ["3"] ∧
    userQueryIdsPlain (.Contains "drinks" (.list [.string "beer", .string "tea"])) = [] ∧
    userQueryIdsPlain (.Contains "drinks" (.list [.string "beer", .string "water"])) = [] ∧
    userQueryIdsPlain (.Contains "drinks"
      (.list [.string "beer", .string "wine", .string "water"])) = [] := by
  refine ⟨?_, ?_, rfl, rfl, rfl, rfl, rfl, rfl⟩
  · intro row a
    have h1 : matchesF (.Contains a (.list ns)) row = containsMatch (getOrNull row a) (.list ns) := by
      simp [matchesF]
    have h2 : matchesF (.Contains a (.list ms)) row = containsMatch (getOrNull row a) (.list ms) := by
      simp [matchesF]
    rw [h1, h2]
    cases getOrNull row a <;> simp [containsMatch]
    exact all_perm hperm
  · intro row a v
    have h1 : matchesF (.Contains a (.list [v])) row = containsMatch (getOrNull row a) (.list [v]) := by
      simp [matchesF]
    rw [h1]
    cases getOrNull row a <;> simp [containsMatch]

theorem contains_semantics_witness :
    matchesF (.Contains "drinks" (.list [Value.string "tea", Value.string "coffee"]))
      [("drinks", Value.list [Value.string "coffee", Value.string "tea"])] =
    matchesF (.Contains "drinks" (.list [Value.string "coffee", Value.string "tea"]))
      [("drinks", Value.list [Value.string "coffee", Value.string "tea"])] :=
  (contains_semantics [Value.string "tea", Value.string "coffee"]
    [Value.string "coffee", Value.string "tea"]
    (List.Perm.swap (Value.string "coffee") (Value.string "tea") [])).1
    [("drinks", Value.list [Value.string "coffee", Value.string "tea"])] "drinks"

/-- C6: `conflicting_entity(id, types)` returns `Some(T)` for the first type
`T` in input order holding an entity with the id, `None` when no listed type
does, and fails with `unknown table '<T>'` when a listed type is not in the
layout — concretely, after inserting Cat fred, `[Cat, Ferret]` gives
`Some(Cat)`, `[Dog, Ferret]` gives `None`, and `[Dog, Ferret, Chair]` errors
with `unknown table 'Chair'`. -/
theorem conflicting_entity_first_match :
    Layout.conflicting_entity thingsLayout catStore "fred" ["Cat", "Ferret"] =
      .ok (some "Cat") ∧
    Layout.conflicting_entity thingsLayout catStore "fred" ["Dog", "Ferret"] = .ok none ∧
    Layout.conflicting_entity thingsLayout catStore "fred" ["Dog", "Ferret", "Chair"] =
      .error "unknown table 'Chair'" ∧
    (∀ (l : Layout) (s : Store) (id T : String) (types : List String),
      Layout.conflicting_entity l s id types = .ok (some T) →
      ∃ pre post, types = pre ++ T :: post ∧
        (∀ t ∈ pre, entityExists s t id = false) ∧ entityExists s T id = true) ∧
    (∀ (l : Layout) (s : Store) (id : String) (types : List String),
      Layout.conflicting_entity l s id types = .ok none →
      ∀ t ∈ types, entityExists s t id = false) ∧
    (∀ (l : Layout) (s : Store) (id T : String) (types : List String),
      T ∈ types → hasTable l T = false →
      ∃ T2, T2 ∈ types ∧ hasTable l T2 = false ∧
        Layout.conflicting_entity l s id types = .error (unknownTable T2)) := by
  refine ⟨rfl, rfl, rfl, ?_, ?_, ?_⟩
  · intro l s id T types h
    unfold Layout.conflicting_entity at h
    cases hu : types.find? (fun t => !(hasTable l t)) with
    | some t => rw [hu] at h; cases h
    | none =>
      rw [hu] at h
      have hfind : types.find? (fun t => entityExists s t id) = some T := by
        cases hf : types.find? (fun t => entityExists s t id) with
        | some T2 => rw [hf] at h; cases h; rfl
        | none => rw [hf] at h; cases h
      obtain ⟨pre, post, hsplit, hpre, hT⟩ := find?_split hfind
      exact ⟨pre, post, hsplit, hpre, hT⟩
  · intro l s id types h
    unfold Layout.conflicting_entity at h
    cases hu : types.find? (fun t => !(hasTable l t)) with
    | some t => rw [hu] at h; cases h
    | none =>
      rw [hu] at h
      have hfind : types.find? (fun t => entityExists s t id) = none := by
        cases hf : types.find? (fun t => entityExists s t id) with
        | some T2 => rw [hf] at h; cases h
        | none => rfl
      intro t ht
      have := List.find?_eq_none.mp hfind t ht
      exact Bool.eq_false_iff.mpr this
  · intro l s id T types hmem hT
    cases hu : types.find? (fun t => !(hasTable l t)) with
    | some t2 =>
      refine ⟨t2, List.mem_of_find?_eq_some hu, ?_, ?_⟩
      · have := List.find?_some hu
        simpa using this
      · unfold Layout.conflicting_entity
        rw [hu]
    | none =>
      exfalso
      have := List.find?_eq_none.mp hu T hmem
      simp [hT] at this

/-- C1: for every entity conforming to its type's schema and every matching
key, after `insert(k, e, b)` a `find` at any block `b2 ≥ b` returns an
entity that agrees with `e` on every field — fields stored as Null and
fields omitted from `e` both read back as Null (`getOrNull`), and
`BigDecimal` fields compare by numeric value (`veq`), not representation. -/
theorem insert_find_roundtrip (l : Layout) (s : Store) (k : EntityKey) (e : Entity)
    (b b2 : Nat) (hb : b ≤ b2)
    (ht : hasTable l k.entity_type = true)
    (hid : getVal e "id" = some (.string k.entity_id))
    (hconf : conformsTo (tableFields l k.entity_type) e = true)
    (hfresh : ∀ r ∈ s, ¬(r.entityType = k.entity_type ∧ r.entityId = k.entity_id)) :
    ∃ s2, Layout.insert l s k e b = .ok s2 ∧
      ∃ e2, Layout.find l s2 k.entity_type k.entity_id b2 = .ok (some e2) ∧
        ∀ f, veq (getOrNull e2 f) (getOrNull e f) = true := by
  have hins : Layout.insert l s k e b =
      .ok (s ++ [⟨k.entity_type, k.entity_id, encodeRow (tableFields l k.entity_type) e, b, none⟩]) := by
    simp [Layout.insert, ht, hid]
  refine ⟨_, hins, encodeRow (tableFields l k.entity_type) e, ?_, ?_⟩
  · have h1 : List.filter
        (fun r => r.entityType == k.entity_type && r.entityId == k.entity_id && visibleAt b2 r) s = [] :=
      List.filter_eq_nil_iff.mpr (fun r hr => by
        rw [pred_false_of_fresh (hfresh r hr)]
        simp)
    have hvis : visibleAt b2
        (⟨k.entity_type, k.entity_id, encodeRow (tableFields l k.entity_type) e, b, none⟩ : Row) = true := by
      simp [visibleAt, hb]
    simp [Layout.find, ht, List.filter_append, h1, List.filter, hvis]
  · intro f
    by_cases hf : (tableFields l k.entity_type).contains f = true
    · simp only [getOrNull, getVal_encodeRow, if_pos hf, Option.getD_some]
      exact veq_normVal _
    · have h1 : getVal (encodeRow (tableFields l k.entity_type) e) f = none := by
        rw [getVal_encodeRow, if_neg hf]
      have h2 : getVal e f = none :=
        getVal_eq_none_of_conforms hconf (Bool.eq_false_iff.mpr hf)
      simp only [getOrNull, h1, h2, Option.getD_none]
      exact veq_refl Value.null

/-- The entity of the C1 roundtrip witness: a Null field (`string`), an
absent nullable field (`color`), and a negative-scale decimal. -/
def c1Entity : Entity :=
  [("id", .string "one"), ("bool", .bool true),
   ("bigDecimal", .bigDecimal 50 (-2)), ("string", .null)]

theorem insert_find_roundtrip_witness :
    ∃ s2, Layout.insert thingsLayout [] (mkKey "Scalar" "one") c1Entity 0 = .ok s2 ∧
      ∃ e2, Layout.find thingsLayout s2 (mkKey "Scalar" "one").entity_type
          (mkKey "Scalar" "one").entity_id 5 = .ok (some e2) ∧
        ∀ f, veq (getOrNull e2 f) (getOrNull c1Entity f) = true :=
  insert_find_roundtrip thingsLayout [] (mkKey "Scalar" "one") c1Entity 0 5
    (by decide) (by decide) (by decide) (by decide) (by simp)

/-- C4: `update(key, e2, b2)` after `insert(key, e1, b1)` with `b2 ≥ b1`
replaces the stored entity wholesale: a `find` at block `b3 ≥ b2` returns an
entity agreeing with `e2` on every field, and every field absent from `e2`
(even one present in `e1`) reads back as `Value.null`. -/
theorem update_replaces_wholesale (l : Layout) (s : Store) (k : EntityKey) (e1 e2 : Entity)
    (b1 b2 b3 : Nat) (h12 : b1 ≤ b2) (h23 : b2 ≤ b3)
    (ht : hasTable l k.entity_type = true)
    (hid1 : getVal e1 "id" = some (.string k.entity_id))
    (hid2 : getVal e2 "id" = some (.string k.entity_id))
    (hconf : conformsTo (tableFields l k.entity_type) e2 = true)
    (hfresh : ∀ r ∈ s, ¬(r.entityType = k.entity_type ∧ r.entityId = k.entity_id)) :
    ∃ s1, Layout.insert l s k e1 b1 = .ok s1 ∧
      ∃ s2, Layout.update l s1 k e2 b2 = .ok s2 ∧
        ∃ e3, Layout.find l s2 k.entity_type k.entity_id b3 = .ok (some e3) ∧
          (∀ f, veq (getOrNull e3 f) (getOrNull e2 f) = true) ∧
          (∀ f, getVal e2 f = none → getOrNull e3 f = .null) := by
  have hins : Layout.insert l s k e1 b1 =
      .ok (s ++ [⟨k.entity_type, k.entity_id, encodeRow (tableFields l k.entity_type) e1, b1, none⟩]) := by
    simp [Layout.insert, ht, hid1]
  refine ⟨_, hins, ?_⟩
  have hupd : Layout.update l
      (s ++ [⟨k.entity_type, k.entity_id, encodeRow (tableFields l k.entity_type) e1, b1, none⟩])
      k e2 b2 =
      .ok ((s.map (clampRow k.entity_type k.entity_id b2) ++
        [⟨k.entity_type, k.entity_id, encodeRow (tableFields l k.entity_type) e1, b1, some b2⟩]) ++
        [⟨k.entity_type, k.entity_id, encodeRow (tableFields l k.entity_type) e2, b2, none⟩]) := by
    simp [Layout.update, ht, hid2, List.map_append, clampRow]
  refine ⟨_, hupd, encodeRow (tableFields l k.entity_type) e2, ?_, ?_, ?_⟩
  · have h1 : List.filter
        (fun r => r.entityType == k.entity_type && r.entityId == k.entity_id && visibleAt b3 r)
        (s.map (clampRow k.entity_type k.entity_id b2)) = [] :=
      List.filter_eq_nil_iff.mpr (fun r hr => by
        obtain ⟨r0, hr0, hr0eq⟩ := List.mem_map.mp hr
        subst hr0eq
        have hth : ¬((clampRow k.entity_type k.entity_id b2 r0).entityType = k.entity_type ∧
            (clampRow k.entity_type k.entity_id b2 r0).entityId = k.entity_id) := by
          rw [clampRow_entityType, clampRow_entityId]
          exact hfresh r0 hr0
        rw [pred_false_of_fresh hth]
        simp)
    have hvis1 : visibleAt b3
        (⟨k.entity_type, k.entity_id, encodeRow (tableFields l k.entity_type) e1, b1, some b2⟩ : Row) = false := by
      simp [visibleAt]
      omega
    have hvis2 : visibleAt b3
        (⟨k.entity_type, k.entity_id, encodeRow (tableFields l k.entity_type) e2, b2, none⟩ : Row) = true := by
      simp [visibleAt, h23]
    simp [Layout.find, ht, List.filter_append, h1, List.filter, hvis1, hvis2]
  · intro f
    by_cases hf : (tableFields l k.entity_type).contains f = true
    · simp only [getOrNull, getVal_encodeRow, if_pos hf, Option.getD_some]
      exact veq_normVal _
    · have h1 : getVal (encodeRow (tableFields l k.entity_type) e2) f = none := by
        rw [getVal_encodeRow, if_neg hf]
      have h2 : getVal e2 f = none :=
        getVal_eq_none_of_conforms hconf (Bool.eq_false_iff.mpr hf)
      simp only [getOrNull, h1, h2, Option.getD_none]
      exact veq_refl Value.null
  · intro f habsent
    by_cases hf : (tableFields l k.entity_type).contains f = true
    · simp only [getOrNull, getVal_encodeRow, if_pos hf, Option.getD_some, habsent,
        Option.getD_none]
      rfl
    · have h1 : getVal (encodeRow (tableFields l k.entity_type) e2) f = none := by
        rw [getVal_encodeRow, if_neg hf]
      simp [getOrNull, h1]

/-- The pre-update entity of the C4 witness (the `update` test's scalar
entity, with a `strings` list that the update then drops). -/
def c4Before : Entity :=
  [("id", .string "one"), ("bool", .bool true), ("string", .string "scalar"),
   ("strings", .list [.string "left", .string "right", .string "middle"])]

/-- The replacing entity of the C4 witness: `string` updated, `strings`
removed, `bool` set to Null, as the staged `update` test builds it. -/
def c4After : Entity :=
  [("id", .string "one"), ("bool", .null), ("string", .string "updated")]

theorem update_replaces_wholesale_witness :
    ∃ s1, Layout.insert thingsLayout [] (mkKey "Scalar" "one") c4Before 0 = .ok s1 ∧
      ∃ s2, Layout.update thingsLayout s1 (mkKey "Scalar" "one") c4After 1 = .ok s2 ∧
        ∃ e3, Layout.find thingsLayout s2 (mkKey "Scalar" "one").entity_type
            (mkKey "Scalar" "one").entity_id 7 = .ok (some e3) ∧
          (∀ f, veq (getOrNull e3 f) (getOrNull c4After f) = true) ∧
          (∀ f, getVal c4After f = none → getOrNull e3 f = .null) :=
  update_replaces_wholesale thingsLayout [] (mkKey "Scalar" "one") c4Before c4After 0 1 7
    (by decide) (by decide) (by decide) (by decide) (by decide) (by decide) (by simp)

/-- The scalar entity the BigDecimal test starts from (`serialize_bigdecimal`
inserts the scalar fixture first), with representative scalar values. -/
def scalarEntityOne : Entity :=
  [("id", .string "one"), ("bool", .bool true), ("int", .int 2147483647),
   ("bigDecimal", .bigDecimal 123456789 30), ("string", .string "scalar"),
   ("strings", .list [.string "left", .string "right", .string "middle"]),
   ("bytes", .bytes (strBytes "bytes")), ("bigInt", .bigInt 9223372036854775807),
   ("color", .string "yellow")]

/-- The same entity with `bigDecimal` replaced by 5000 at scale −2, i.e.
`BigDecimal::from_str("5000").with_scale(-2)`: digits 50, scale −2,
denoting `50 · 10²`. -/
def scalarEntityNeg : Entity :=
  [("id", .string "one"), ("bool", .bool true), ("int", .int 2147483647),
   ("bigDecimal", .bigDecimal 50 (-2)), ("string", .string "scalar"),
   ("strings", .list [.string "left", .string "right", .string "middle"]),
   ("bytes", .bytes (strBytes "bytes")), ("bigInt", .bigInt 9223372036854775807),
   ("color", .string "yellow")]

/-- C9: a BigDecimal with a negative scale round-trips through storage
preserving mathematical equality: writing 5000 represented as 50 at scale −2
via `update` and reading it back via `find` yields a BigDecimal that is
numerically equal to the written value — the storage normalizes the
representation to digits 5, scale −3, but `5 · 10³ = 50 · 10² = 5000`. -/
theorem serialize_bigdecimal_negative_scale :
    ∃ s1, Layout.insert thingsLayout [] (mkKey "Scalar" "one") scalarEntityOne 0 = .ok s1 ∧
      ∃ s2, Layout.update thingsLayout s1 (mkKey "Scalar" "one") scalarEntityNeg 1 = .ok s2 ∧
        ∃ e2, Layout.find thingsLayout s2 "Scalar" "one" BLOCK_NUMBER_MAX = .ok (some e2) ∧
          getVal e2 "bigDecimal" = some (.bigDecimal 5 (-3)) ∧
          veq (getOrNull e2 "bigDecimal") (.bigDecimal 50 (-2)) = true ∧
          decimalVal 5 (-3) = decimalVal 50 (-2) ∧
          decimalVal 50 (-2) = 5000 := by
  refine ⟨_, rfl, _, rfl, _, rfl, rfl, ?_, ?_, ?_⟩
  · decide
  · show decimalVal 5 (-3) = decimalVal 50 (-2)
    have h := decimalNorm_val 50 (-2)
    rw [show decimalNorm 50 (-2) = (5, -3) from by decide] at h
    exact h
  · show decimalVal 50 (-2) = 5000
    unfold decimalVal
    norm_num

end RelStore

namespace Convert

open RelStore

/-- C10: for every `Transaction` (with its `transaction_index` and
`block_hash` present, which the source `unwrap`s) and every
`BlockWithOmmers` whose underlying block hash and number are present, the
entity produced by `try_into_entity` carries an `id` field equal to the
string `to_entity_id` returns, and that string is the `entity_id` of the key
`to_entity_key` builds — under entity types `"Transaction"` and `"Block"`
respectively — so the write path's `entity.id == key.entity_id`
precondition holds for converter-produced payloads. -/
theorem converter_id_key_consistent (t : Transaction) (idx bh : Nat) (sid : String)
    (b : BlockWithOmmers) (h n : Nat)
    (hidx : t.transaction_index = some idx) (hbh : t.block_hash = some bh)
    (hh : b.block.block.hash = some h) (hn : b.block.block.number = some n) :
    (∃ e, Transaction.try_into_entity t = some e ∧
      getVal e "id" = some (.string (Transaction.to_entity_id t)) ∧
      (Transaction.to_entity_key t sid).entity_id = Transaction.to_entity_id t ∧
      (Transaction.to_entity_key t sid).entity_type = "Transaction") ∧
    (∃ e, BlockWithOmmers.try_into_entity b = some e ∧
      BlockWithOmmers.to_entity_id b = some (h256Hex h) ∧
      getVal e "id" = some (.string (h256Hex h)) ∧
      BlockWithOmmers.to_entity_key b sid = some ⟨sid, "Block", h256Hex h⟩) := by
  constructor
  · rw [Transaction.try_into_entity, hidx, hbh]
    refine ⟨_, rfl, ?_, rfl, rfl⟩
    simp [getVal, List.find?, Transaction.to_entity_id, H256.toEntityId]
  · rw [BlockWithOmmers.try_into_entity, BlockWithOmmers.inner, hh, hn]
    refine ⟨_, rfl, ?_, ?_, ?_⟩
    · rw [BlockWithOmmers.to_entity_id, hh]
      rfl
    · simp [getVal, List.find?]
    · rw [BlockWithOmmers.to_entity_key, hh]
      rfl

/-- The concrete transaction of the C10 witness. -/
def txWitness : Transaction :=
  ⟨1, 2, some 3, 4, none, 5, 6, 7, [8, 9], some 10⟩

/-- The concrete block of the C10 witness. -/
def blockWitness : BlockWithOmmers :=
  ⟨⟨⟨some 11, some 12, 13, some 14, 15, 16, 17, [18], 19, 20, 21, 22, 23, 24, 25, 26,
    [27], [txWitness], some 28, [[29]]⟩⟩, []⟩

theorem converter_id_key_consistent_witness :
    (∃ e, Transaction.try_into_entity txWitness = some e ∧
      getVal e "id" = some (.string (Transaction.to_entity_id txWitness)) ∧
      (Transaction.to_entity_key txWitness "sg").entity_id =
        Transaction.to_entity_id txWitness ∧
      (Transaction.to_entity_key txWitness "sg").entity_type = "Transaction") ∧
    (∃ e, BlockWithOmmers.try_into_entity blockWitness = some e ∧
      BlockWithOmmers.to_entity_id blockWitness = some (h256Hex 11) ∧
      getVal e "id" = some (.string (h256Hex 11)) ∧
      BlockWithOmmers.to_entity_key blockWitness "sg" = some ⟨"sg", "Block", h256Hex 11⟩) :=
  converter_id_key_consistent txWitness 3 10 "sg" blockWitness 11 12 rfl rfl rfl rfl

end Convert
